import Mathlib

/-!
Verification development for the SparseEnd2End head-export module
(`deploy/nusc_export_onnx/export_head_onnx.py`) and the data-parallel
wrapper (`tool/utils/data_parallel.py`).

The torch tensors are embedded as nested lists of integers: the claims
under study are exact structural equalities (gather, concatenate,
element-wise select), which hold for any element type, so `Int` entries
stand in for the floating-point payload.  Opaque sub-operators of the
head (anchor encoder, attention blocks, feed-forward, deformable
aggregation, refinement layer) are fields of the head structure holding
arbitrary functions, exactly as the exported module treats them: black
boxes invoked at fixed points of the dispatch loop.
-/

/-- A feature or anchor vector of a single instance (innermost axis). -/
abbrev Vec := List Int

/-- One batch sample worth of instance rows, or any rank-2 tensor. -/
abbrev Mat := List Vec

/-- A rank-3 tensor (batch, instance, channel): instance features,
anchors, anchor embeddings. -/
abbrev Tensor3 := List Mat

/-- `torch.where(mask[:, None, None], x, y)` on rank-3 tensors whose
leading axis is the batch: per batch sample pick the row block of `x`
when the mask is true and of `y` when it is false. -/
def where3 : List Bool → Tensor3 → Tensor3 → Tensor3
  | m :: ms, x :: xs, y :: ys => (if m then x else y) :: where3 ms xs ys
  | _, _, _ => []

/-- `torch.where(mask[:, None], track_id, track_id.new_tensor(-1))`:
per batch sample keep the track-id row when the mask is true, else
replace every slot by the sentinel `-1`. -/
def whereTid : List Bool → Mat → Mat
  | m :: ms, r :: rs => (if m then r else r.map fun _ => (-1 : Int)) :: whereTid ms rs
  | _, _ => []

/-- `torch.cat([a, b], dim=1)` on rank-3 tensors: per batch sample,
append the instance rows of `b` after those of `a`. -/
def cat1 : Tensor3 → Tensor3 → Tensor3
  | x :: xs, y :: ys => (x ++ y) :: cat1 xs ys
  | _, _ => []

/-- Maximum entry of a vector (`tensor.max(dim=-1).values` on one row;
torch errors on an empty reduction axis, the `0` default is unreached
for the class axis which is nonempty). -/
def rowMax : Vec → Int
  | [] => 0
  | x :: xs => xs.foldl max x

/-- `cls.max(dim=-1).values`: reduce the trailing class axis of the
classification tensor (batch, instance, class) by maximum. -/
def maxLast (c : Tensor3) : Mat :=
  c.map fun b => b.map rowMax

/-- Insert index `i` into an index list already sorted by decreasing
score, keeping the list sorted by decreasing score. -/
def insertIdxDesc (s : Vec) (i : Nat) : List Nat → List Nat
  | [] => [i]
  | j :: t => if s.getD j 0 < s.getD i 0 then i :: j :: t else j :: insertIdxDesc s i t

/-- All indices of a score row, sorted by decreasing score. -/
def sortIdxDesc (s : Vec) : List Nat :=
  (List.range s.length).foldr (insertIdxDesc s) []

/-- The `k` highest-scoring indices of one score row, decreasing. -/
def topkIdx (s : Vec) (k : Nat) : List Nat :=
  (sortIdxDesc s).take k

/-- Gather the listed rows of a rank-2 block. -/
def gatherRow (rows : Mat) (idx : List Nat) : Mat :=
  idx.map fun i => rows.getD i []

/-- Modelled from the spec: the function `topk` imported from
`modules/head/sparse4d_blocks/instance_bank.py` is not among the
provided sources.  Following section 4.2 of the spec: given a score
tensor (batch, num_candidates) and a count `k`, per batch row return
the `k` highest scores in decreasing order together with the gathered
(feature, anchor) rows at the selected indices; the selection is
deterministic for fixed inputs. -/
def topk (confidence : Mat) (k : Nat) (instance_feature anchor : Tensor3) :
    Mat × (Tensor3 × Tensor3) :=
  (confidence.map fun s => (topkIdx s k).map fun j => s.getD j 0,
   (List.zipWith (fun s rows => gatherRow rows (topkIdx s k)) confidence instance_feature,
    List.zipWith (fun s rows => gatherRow rows (topkIdx s k)) confidence anchor))

/-- `anchor_embed[:, :n]`: keep the first `n` instance rows of every
batch sample. -/
def sliceRows (t : Tensor3) (n : Nat) : Tensor3 :=
  t.map fun m => m.take n

/- ----------------------------------------------------------------
`dummpy_input`: the per-camera per-level start-offset tensor
(`dummy_level_start_index`), lines 340-362 of the export script.
---------------------------------------------------------------- -/

/-- The per-level flattened sizes `h_kx * w_kx` for the four pyramid
levels (strides 4, 8, 16, 32) built from the input height and width,
as in `dummpy_input`. -/
def levelSizes (input_h input_w : Nat) : List Nat :=
  [(input_h / 4) * (input_w / 4), (input_h / 8) * (input_w / 8),
   (input_h / 16) * (input_w / 16), (input_h / 32) * (input_w / 32)]

/-- Inclusive running sums starting from accumulator `a`
(`tensor.cumsum(dim=0)` shifted by `a`). -/
def inclSums (a : Nat) : List Nat → List Nat
  | [] => []
  | x :: xs => (a + x) :: inclSums (a + x) xs

/-- Exclusive running sums starting from accumulator `a`: the offset at
which each entry begins. -/
def scanSums (a : Nat) : List Nat → List Nat
  | [] => []
  | x :: xs => a :: scanSums (a + x) xs

/-- Reshape a flat list into rows of four (`tensor.reshape(nums_cam, 4)`
for a tensor of `4 * nums_cam` entries). -/
def chunk4 {α : Type} : List α → List (List α)
  | a :: b :: c :: d :: rest => [a, b, c, d] :: chunk4 rest
  | _ => []

/-- The `.int()` cast: reduce to the signed 32-bit range with wrap. -/
def toInt32 (n : Nat) : Int :=
  ((n : Int) + 2 ^ 31) % 2 ^ 32 - 2 ^ 31

/-- `dummy_level_start_index` exactly as `dummpy_input` builds it:
per-(camera, level) sizes `h*w` flattened over all cameras, cumulative
sum along the flat axis, cast to int32, then a `0` prepended and the
last entry dropped, reshaped to `(nums_cam, 4)`. -/
def dummy_level_start_index (nums_cam input_h input_w : Nat) : List (List Int) :=
  let flat := (List.replicate nums_cam (levelSizes input_h input_w)).flatten
  chunk4 ((0 : Int) :: ((inclSums 0 flat).map toInt32).dropLast)

/-- The start-offset tensor as the spec sentence words it: the exclusive
prefix sum of `h*w` across the levels, with the running offset reset to
`0` at the start of each camera. -/
def resetStartIndex (nums_cam input_h input_w : Nat) : List (List Int) :=
  List.replicate nums_cam ((scanSums 0 (levelSizes input_h input_w)).map fun n => (n : Int))

/- ----------------------------------------------------------------
`E2EDataParallel` (`tool/utils/data_parallel.py`).  Inputs and results
are opaque types; the entry points return the outcome together with the
ordered list of externally visible effects (scatter calls and wrapped
module invocations), so that "raised before the inputs are scattered
and before the module is invoked" is expressible.
---------------------------------------------------------------- -/

/-- The two fatal error kinds the wrapper can raise: the Python
`assert len(self.device_ids) == 1` (AssertionError) and the explicit
`raise RuntimeError` of the parameter/buffer colocation check. -/
inductive DPError where
  | assertionError
  | runtimeError
deriving DecidableEq, Repr

/-- Externally visible effects of one wrapper entry-point call, in
order of occurrence. -/
inductive DPEvent where
  | scatterCall (device_ids : List Int)
  | moduleForward
  | moduleTrainStep
  | moduleValStep
  | superForward
deriving DecidableEq, Repr

/-- The wrapped module: its three callables and the devices on which
its parameters and buffers reside (the devices visited by
`chain(self.module.parameters(), self.module.buffers())`). -/
structure E2EModule (I R : Type) where
  forwardFn : I → R
  trainStepFn : I → R
  valStepFn : I → R
  paramDevices : List Int

/-- The `E2EDataParallel` wrapper.  `shard` is modelled from the spec:
`scatter_kwargs` (`dataset/utils/scatter_gather.py`) is not among the
provided sources; per section 6 of the spec it converts the inputs into
one shard per entry of the device list, so it is embedded as an opaque
per-device conversion, and scattering over a device list maps it over
the list.  `superForwardFn` stands for the inherited
`torch.nn.DataParallel.forward`, external library code. -/
structure E2EDataParallel (I R : Type) where
  module : E2EModule I R
  device_ids : List Int
  shard : I → Int → I
  superForwardFn : I → R

/-- `self.scatter(inputs, kwargs, device_ids)`: one converted shard per
listed device. -/
def dpScatter {I R : Type} (dp : E2EDataParallel I R) (inputs : I)
    (devs : List Int) : List I :=
  devs.map (dp.shard inputs)

/-- `self.src_device_obj`: the first designated device. -/
def srcDevice {I R : Type} (dp : E2EDataParallel I R) : Int :=
  dp.device_ids.headD 0

/-- `E2EDataParallel.forward` (lines 38-50): with no designated devices
scatter through the degenerate device list `[-1]` and call the wrapped
module on the first shard; otherwise defer to the inherited
`DataParallel.forward`. -/
def E2EDataParallel.forward {I R : Type} (dp : E2EDataParallel I R) (inputs : I) :
    Except DPError R × List DPEvent :=
  if dp.device_ids = [] then
    (Except.ok (dp.module.forwardFn ((dpScatter dp inputs [-1]).headD inputs)),
     [DPEvent.scatterCall [-1], DPEvent.moduleForward])
  else
    (Except.ok (dp.superForwardFn inputs), [DPEvent.superForward])

/-- `E2EDataParallel.train_step` (lines 57-79): empty device list means
degenerate scatter plus direct invocation; otherwise the single-GPU
assertion runs first, then the parameter/buffer colocation check, and
only then are the inputs scattered and the wrapped module invoked on
the first shard. -/
def E2EDataParallel.train_step {I R : Type} (dp : E2EDataParallel I R) (inputs : I) :
    Except DPError R × List DPEvent :=
  if dp.device_ids = [] then
    (Except.ok (dp.module.trainStepFn ((dpScatter dp inputs [-1]).headD inputs)),
     [DPEvent.scatterCall [-1], DPEvent.moduleTrainStep])
  else if dp.device_ids.length = 1 then
    if dp.module.paramDevices.all (fun d => d = srcDevice dp) then
      (Except.ok (dp.module.trainStepFn ((dpScatter dp inputs dp.device_ids).headD inputs)),
       [DPEvent.scatterCall dp.device_ids, DPEvent.moduleTrainStep])
    else (Except.error DPError.runtimeError, [])
  else (Except.error DPError.assertionError, [])

/-- `E2EDataParallel.val_step` (lines 81-103): same control flow as
`train_step`, invoking the wrapped module validation entry point. -/
def E2EDataParallel.val_step {I R : Type} (dp : E2EDataParallel I R) (inputs : I) :
    Except DPError R × List DPEvent :=
  if dp.device_ids = [] then
    (Except.ok (dp.module.valStepFn ((dpScatter dp inputs [-1]).headD inputs)),
     [DPEvent.scatterCall [-1], DPEvent.moduleValStep])
  else if dp.device_ids.length = 1 then
    if dp.module.paramDevices.all (fun d => d = srcDevice dp) then
      (Except.ok (dp.module.valStepFn ((dpScatter dp inputs dp.device_ids).headD inputs)),
       [DPEvent.scatterCall dp.device_ids, DPEvent.moduleValStep])
    else (Except.error DPError.runtimeError, [])
  else (Except.error DPError.assertionError, [])

/- ----------------------------------------------------------------
The first-frame head `Sparse4DHead1st.head_forward` (lines 64-135).
---------------------------------------------------------------- -/

/-- The `self` object of `Sparse4DHead1st.head_forward`: the resolved
operation order, which layer slots are `None`, the anchor encoder, the
opaque sub-operators (each also receives the stage index `i`, as
`self.graph_model(i, ...)` and `self.layers[i](...)` do), and the
single-frame decoder stage count. -/
structure Head1 where
  operation_order : List String
  layerAbsent : Nat → Bool
  anchor_encoder : Tensor3 → Tensor3
  graph_model_temp : Nat → Tensor3 → Option Tensor3 → Option Tensor3 → Tensor3 → Option Tensor3 → Tensor3
  graph_model_self : Nat → Tensor3 → Tensor3 → Tensor3 → Tensor3
  layer_pointwise : Nat → Tensor3 → Tensor3
  layer_deformable : Nat → Tensor3 → Tensor3 → Tensor3 → Tensor3 × Mat × Mat → Tensor3 × Mat → Tensor3
  layer_refine : Nat → Tensor3 → Tensor3 → Tensor3 → Vec → Bool → Tensor3 × Tensor3 × Tensor3
  num_single_frame_decoder : Nat

/-- The tensor arguments of `Sparse4DHead1st.head_forward`. -/
structure Inputs1 where
  instance_feature : Tensor3
  anchor : Tensor3
  time_interval : Vec
  feature : Tensor3
  spatial_shapes : Mat
  level_start_index : Mat
  lidar2img : Tensor3
  image_wh : Mat

/-- The mutable state of the first-frame dispatch loop.  `cls` and `qt`
are `Option`s because the Python locals are unbound until the first
refine stage executes. -/
structure State1 where
  instance_feature : Tensor3
  anchor : Tensor3
  anchor_embed : Tensor3
  prediction : List Tensor3
  cls : Option Tensor3
  qt : Option Tensor3
deriving DecidableEq, Repr

/-- The `return_cls` argument of the refine layer call:
`len(prediction) == self.num_single_frame_decoder - 1 or
i == len(self.operation_order) - 1` (Python integer arithmetic, hence
the `Int` subtraction). -/
def returnCls1 (h : Head1) (i : Nat) (s : State1) : Bool :=
  ((s.prediction.length : Int) == (h.num_single_frame_decoder : Int) - 1)
    || (i == h.operation_order.length - 1)

/-- The refine layer call of the first-frame loop body:
`anchor, cls, qt = self.layers[i](instance_feature, anchor,
anchor_embed, time_interval=time_interval, return_cls=...)`. -/
def refineOut1 (h : Head1) (inp : Inputs1) (i : Nat) (s : State1) :
    Tensor3 × Tensor3 × Tensor3 :=
  h.layer_refine i s.instance_feature s.anchor s.anchor_embed inp.time_interval
    (returnCls1 h i s)

/-- One iteration of the `for i, op in enumerate(self.operation_order)`
loop of `Sparse4DHead1st.head_forward`: skip when `self.layers[i] is
None`, otherwise dispatch on the operation tag; the first-frame path
passes `None` for the temporal feature and temporal anchor embedding. -/
def step1 (h : Head1) (inp : Inputs1) (i : Nat) (op : String) (s : State1) : State1 :=
  if h.layerAbsent i then s
  else
    match op with
    | "temp_gnn" =>
        { s with instance_feature :=
            h.graph_model_temp i s.instance_feature none none s.anchor_embed none }
    | "gnn" =>
        { s with instance_feature :=
            h.graph_model_self i s.instance_feature s.instance_feature s.anchor_embed }
    | "norm" | "ffn" =>
        { s with instance_feature := h.layer_pointwise i s.instance_feature }
    | "deformable" =>
        { s with instance_feature :=
            (h.layer_deformable i s.instance_feature s.anchor s.anchor_embed
              (inp.feature, inp.spatial_shapes, inp.level_start_index)
              (inp.lidar2img, inp.image_wh)) }
    | "refine" =>
        let r := refineOut1 h inp i s
        { instance_feature := s.instance_feature
          anchor := r.1
          anchor_embed :=
            if i ≠ h.operation_order.length - 1 then h.anchor_encoder r.1
            else s.anchor_embed
          prediction := s.prediction ++ [r.1]
          cls := some r.2.1
          qt := some r.2.2 }
    | _ => s

/-- The state entering the first-frame loop: the anchor embedding is
computed from the input anchor, no prediction has accumulated, `cls`
and `qt` are unbound. -/
def init1 (h : Head1) (inp : Inputs1) : State1 :=
  { instance_feature := inp.instance_feature
    anchor := inp.anchor
    anchor_embed := h.anchor_encoder inp.anchor
    prediction := []
    cls := none
    qt := none }

/-- Run the first-frame loop from position `i` over the remaining
operation tags. -/
def run1Aux (h : Head1) (inp : Inputs1) : Nat → List String → State1 → State1
  | _, [], s => s
  | i, op :: rest, s => run1Aux h inp (i + 1) rest (step1 h inp i op s)

/-- The whole first-frame dispatch loop. -/
def run1 (h : Head1) (inp : Inputs1) : State1 :=
  run1Aux h inp 0 h.operation_order (init1 h inp)

/-- `Sparse4DHead1st.head_forward`: final instance feature, anchor,
classification score and quality score. -/
def Sparse4DHead1st.head_forward (h : Head1) (inp : Inputs1) :
    Tensor3 × Tensor3 × Option Tensor3 × Option Tensor3 :=
  let s := run1 h inp
  (s.instance_feature, s.anchor, s.cls, s.qt)

/- ----------------------------------------------------------------
The subsequent-frame head `Sparse4DHead2rd.head_forward`
(lines 168-268).
---------------------------------------------------------------- -/

/-- The `self` object of `Sparse4DHead2rd.head_forward`; beyond the
first-frame fields it carries the instance-bank size constants
`num_anchor` and `num_temp_instances`. -/
structure Head2 where
  operation_order : List String
  layerAbsent : Nat → Bool
  anchor_encoder : Tensor3 → Tensor3
  graph_model_temp : Nat → Tensor3 → Tensor3 → Tensor3 → Tensor3 → Tensor3 → Tensor3
  graph_model_self : Nat → Tensor3 → Tensor3 → Tensor3 → Tensor3
  layer_pointwise : Nat → Tensor3 → Tensor3
  layer_deformable : Nat → Tensor3 → Tensor3 → Tensor3 → Tensor3 × Mat × Mat → Tensor3 × Mat → Tensor3
  layer_refine : Nat → Tensor3 → Tensor3 → Tensor3 → Vec → Bool → Tensor3 × Tensor3 × Tensor3
  num_single_frame_decoder : Nat
  num_anchor : Nat
  num_temp_instances : Nat

/-- The tensor arguments of `Sparse4DHead2rd.head_forward`. -/
structure Inputs2 where
  temp_instance_feature : Tensor3
  temp_anchor : Tensor3
  mask : List Bool
  track_id : Mat
  instance_feature : Tensor3
  anchor : Tensor3
  time_interval : Vec
  feature : Tensor3
  spatial_shapes : Mat
  level_start_index : Mat
  lidar2img : Tensor3
  image_wh : Mat

/-- The classification score held by the loop: rank-3 as produced by a
refine layer, or rank-2 after the temporal-merge event overwrote it
with its max-over-classes reduction (`cls = cls.max(dim=-1).values`). -/
inductive ClsVal where
  | rank3 : Tensor3 → ClsVal
  | rank2 : Mat → ClsVal
deriving DecidableEq, Repr

/-- The mutable state of the subsequent-frame dispatch loop. -/
structure State2 where
  instance_feature : Tensor3
  anchor : Tensor3
  anchor_embed : Tensor3
  temp_anchor_embed : Tensor3
  prediction : List Tensor3
  cls : Option ClsVal
  qt : Option Tensor3
  track_id : Mat
deriving DecidableEq, Repr

/-- The `return_cls` argument of the subsequent-frame refine call. -/
def returnCls2 (h : Head2) (i : Nat) (s : State2) : Bool :=
  ((s.prediction.length : Int) == (h.num_single_frame_decoder : Int) - 1)
    || (i == h.operation_order.length - 1)

/-- The refine layer call of the subsequent-frame loop body. -/
def refineOut2 (h : Head2) (inp : Inputs2) (i : Nat) (s : State2) :
    Tensor3 × Tensor3 × Tensor3 :=
  h.layer_refine i s.instance_feature s.anchor s.anchor_embed inp.time_interval
    (returnCls2 h i s)

/-- One iteration of the subsequent-frame loop.  The refine branch
appends the refined anchor to the prediction accumulator; when the
accumulated count reaches `num_single_frame_decoder` the temporal-merge
event fires (top-k by max-over-class score, temporal rows concatenated
in front, per-sample select of the merged versus the pre-merge state,
track-id invalidation where the mask is false); afterwards the anchor
embedding is recomputed except at the very last dispatch position, and
once the count exceeds `num_single_frame_decoder` the temporal anchor
embedding is re-sliced from the first `num_temp_instances` rows. -/
def step2 (h : Head2) (inp : Inputs2) (i : Nat) (op : String) (s : State2) : State2 :=
  if h.layerAbsent i then s
  else
    match op with
    | "temp_gnn" =>
        { s with instance_feature :=
            (h.graph_model_temp i s.instance_feature inp.temp_instance_feature
              inp.temp_instance_feature s.anchor_embed s.temp_anchor_embed) }
    | "gnn" =>
        { s with instance_feature :=
            h.graph_model_self i s.instance_feature s.instance_feature s.anchor_embed }
    | "norm" | "ffn" =>
        { s with instance_feature := h.layer_pointwise i s.instance_feature }
    | "deformable" =>
        { s with instance_feature :=
            (h.layer_deformable i s.instance_feature s.anchor s.anchor_embed
              (inp.feature, inp.spatial_shapes, inp.level_start_index)
              (inp.lidar2img, inp.image_wh)) }
    | "refine" =>
        let r := refineOut2 h inp i s
        let prediction1 := s.prediction ++ [r.1]
        let merged : Tensor3 × Tensor3 × ClsVal × Mat :=
          if prediction1.length = h.num_single_frame_decoder then
            let N := h.num_anchor - h.num_temp_instances
            let clsM := maxLast r.2.1
            let sel := topk clsM N s.instance_feature r.1
            let selected_feature := cat1 inp.temp_instance_feature sel.2.1
            let selected_anchor := cat1 inp.temp_anchor sel.2.2
            (where3 inp.mask selected_feature s.instance_feature,
             where3 inp.mask selected_anchor r.1,
             ClsVal.rank2 clsM,
             whereTid inp.mask s.track_id)
          else (s.instance_feature, r.1, ClsVal.rank3 r.2.1, s.track_id)
        let anchor_embed1 :=
          if i ≠ h.operation_order.length - 1 then h.anchor_encoder merged.2.1
          else s.anchor_embed
        let temp_anchor_embed1 :=
          if prediction1.length > h.num_single_frame_decoder then
            sliceRows anchor_embed1 h.num_temp_instances
          else s.temp_anchor_embed
        { instance_feature := merged.1
          anchor := merged.2.1
          anchor_embed := anchor_embed1
          temp_anchor_embed := temp_anchor_embed1
          prediction := prediction1
          cls := some merged.2.2.1
          qt := some r.2.2
          track_id := merged.2.2.2 }
    | _ => s

/-- The state entering the subsequent-frame loop: anchor embeddings are
computed up front for both the current and the temporal anchor, the
track identity starts from the input tensor. -/
def init2 (h : Head2) (inp : Inputs2) : State2 :=
  { instance_feature := inp.instance_feature
    anchor := inp.anchor
    anchor_embed := h.anchor_encoder inp.anchor
    temp_anchor_embed := h.anchor_encoder inp.temp_anchor
    prediction := []
    cls := none
    qt := none
    track_id := inp.track_id }

/-- Run the subsequent-frame loop from position `i` over the remaining
operation tags. -/
def run2Aux (h : Head2) (inp : Inputs2) : Nat → List String → State2 → State2
  | _, [], s => s
  | i, op :: rest, s => run2Aux h inp (i + 1) rest (step2 h inp i op s)

/-- The whole subsequent-frame dispatch loop. -/
def run2 (h : Head2) (inp : Inputs2) : State2 :=
  run2Aux h inp 0 h.operation_order (init2 h inp)

/-- `Sparse4DHead2rd.head_forward`: final instance feature, anchor,
classification score, quality score and track identity. -/
def Sparse4DHead2rd.head_forward (h : Head2) (inp : Inputs2) :
    Tensor3 × Tensor3 × Option ClsVal × Option Tensor3 × Mat :=
  let s := run2 h inp
  (s.instance_feature, s.anchor, s.cls, s.qt, s.track_id)

/-- The temporal-merge event exactly as section 4.4 of the spec words
it: compute `N = num_instances - num_temporal_instances`, take the
top-N of (instance feature, anchor) by the running classification
max-over-classes score, concatenate the temporal instances in front of
the selected N to rebuild a full-size pair, then per batch sample
select element-wise between the rebuilt pair and the pre-merge pair
using the continuation mask, and keep track identities where the mask
is true while overwriting with the sentinel where it is false. -/
def specTemporalMerge (num_instances num_temporal : Nat) (mask : List Bool)
    (temp_instance_feature temp_anchor : Tensor3)
    (instance_feature anchor : Tensor3) (cls : Tensor3) (track_id : Mat) :
    Tensor3 × Tensor3 × Mat :=
  let N := num_instances - num_temporal
  let score := maxLast cls
  let sel := topk score N instance_feature anchor
  let rebuilt_feature := cat1 temp_instance_feature sel.2.1
  let rebuilt_anchor := cat1 temp_anchor sel.2.2
  (where3 mask rebuilt_feature instance_feature,
   where3 mask rebuilt_anchor anchor,
   whereTid mask track_id)

/-- Number of executed refine stages (tag `refine` with a present
layer) in a tag list whose first element sits at dispatch position
`i`. -/
def refCntFrom (h : Head2) : Nat → List String → Nat
  | _, [] => 0
  | i, op :: rest =>
      (if op = "refine" ∧ h.layerAbsent i = false then 1 else 0) + refCntFrom h (i + 1) rest

/-- Number of executed refine stages among the first `k` dispatch
positions. -/
def refCntUpTo (h : Head2) (k : Nat) : Nat :=
  refCntFrom h 0 (h.operation_order.take k)

/-- The loop state just before dispatch position `k`. -/
def stateAt2 (h : Head2) (inp : Inputs2) (k : Nat) : State2 :=
  run2Aux h inp 0 (h.operation_order.take k) (init2 h inp)

/-- Dispatch position `k` is an executed refine stage. -/
def execRefine (h : Head2) (k : Nat) : Bool :=
  (h.operation_order.getD k "" == "refine") && !h.layerAbsent k

/-- The temporal-merge event fires at dispatch position `k`: the
position is an executed refine stage and, entering it, appending one
more prediction reaches the single-frame decoder stage count. -/
def mergeFiresAt (h : Head2) (inp : Inputs2) (k : Nat) : Prop :=
  k < h.operation_order.length ∧ execRefine h k = true ∧
    (stateAt2 h inp k).prediction.length + 1 = h.num_single_frame_decoder

/-- Invariant of the subsequent-frame loop used for the track-identity
result: before the merge event the track-id tensor is the input one,
from the merge event on it is the mask-selected one. -/
def trackInv (h : Head2) (inp : Inputs2) (s : State2) : Prop :=
  (s.prediction.length < h.num_single_frame_decoder ∧ s.track_id = inp.track_id) ∨
  (h.num_single_frame_decoder ≤ s.prediction.length ∧
    s.track_id = whereTid inp.mask inp.track_id)

/- ----------------------------------------------------------------
Concrete instantiations used to exhibit the theorems at explicit
inputs.
---------------------------------------------------------------- -/

/-- A concrete anchor encoder: add 100 to every channel. -/
def exEnc : Tensor3 → Tensor3 :=
  fun t => t.map fun m => m.map fun v => v.map fun x => x + 100

/-- A concrete subsequent-frame head: two refine stages, all layers
present, merge after the first (`num_single_frame_decoder = 1`), bank
of two instances of which one is temporal. -/
def exHead2 : Head2 :=
  { operation_order := ["refine", "refine"]
    layerAbsent := fun _ => false
    anchor_encoder := exEnc
    graph_model_temp := fun _ q _ _ _ _ => q
    graph_model_self := fun _ q _ _ => q
    layer_pointwise := fun _ x => x
    layer_deformable := fun _ x _ _ _ _ => x
    layer_refine := fun _ f a _ _ _ => (a, f, f)
    num_single_frame_decoder := 1
    num_anchor := 2
    num_temp_instances := 1 }

/-- The concrete head with every layer slot absent. -/
def exHead2A : Head2 :=
  { exHead2 with layerAbsent := fun _ => true }

/-- Concrete subsequent-frame inputs: batch of two samples, the first
with continuation mask false, the second true. -/
def exInp2 : Inputs2 :=
  { temp_instance_feature := [[[10]], [[11]]]
    temp_anchor := [[[20]], [[21]]]
    mask := [false, true]
    track_id := [[7, 8], [9, 10]]
    instance_feature := [[[1], [2]], [[3], [4]]]
    anchor := [[[5], [6]], [[7], [8]]]
    time_interval := [0, 0]
    feature := []
    spatial_shapes := []
    level_start_index := []
    lidar2img := []
    image_wh := [] }

/-- A concrete first-frame head with two refine stages. -/
def exHead1 : Head1 :=
  { operation_order := ["refine", "refine"]
    layerAbsent := fun _ => false
    anchor_encoder := exEnc
    graph_model_temp := fun _ q _ _ _ _ => q
    graph_model_self := fun _ q _ _ => q
    layer_pointwise := fun _ x => x
    layer_deformable := fun _ x _ _ _ _ => x
    layer_refine := fun _ f a _ _ _ => (a, f, f)
    num_single_frame_decoder := 1 }

/-- The concrete first-frame head with every layer slot absent. -/
def exHead1A : Head1 :=
  { exHead1 with layerAbsent := fun _ => true }

/-- Concrete first-frame inputs: one sample, two instances. -/
def exInp1 : Inputs1 :=
  { instance_feature := [[[1], [2]]]
    anchor := [[[5], [6]]]
    time_interval := [0]
    feature := []
    spatial_shapes := []
    level_start_index := []
    lidar2img := []
    image_wh := [] }

/-- A concrete wrapped module over integer-list inputs and results. -/
def exModule : E2EModule (List Int) (List Int) :=
  { forwardFn := fun l => 2 :: l
    trainStepFn := fun l => 0 :: l
    valStepFn := fun l => 1 :: l
    paramDevices := [0] }

/-- The wrapper with an empty designated device list. -/
def exDP0 : E2EDataParallel (List Int) (List Int) :=
  { module := exModule
    device_ids := []
    shard := fun l d => l.map (· + d)
    superForwardFn := fun l => l }

/-- The wrapper with a single designated device, parameters colocated. -/
def exDP1 : E2EDataParallel (List Int) (List Int) :=
  { exDP0 with device_ids := [0] }

/-- The wrapper with two designated devices. -/
def exDP2 : E2EDataParallel (List Int) (List Int) :=
  { exDP0 with device_ids := [0, 1] }

/-- The wrapper with two designated devices and a parameter residing on
a device other than the source device. -/
def exDP2M : E2EDataParallel (List Int) (List Int) :=
  { exDP0 with device_ids := [0, 1], module := { exModule with paramDevices := [5] } }

/-- The wrapper with one designated device and a parameter residing on
a different device. -/
def exDP1M : E2EDataParallel (List Int) (List Int) :=
  { exDP0 with device_ids := [0], module := { exModule with paramDevices := [1] } }

/- ----------------------------------------------------------------
Theorems: replication wrapper (claims C4, C8, C9).
---------------------------------------------------------------- -/

/-- C9: when the designated device list is empty, `forward`,
`train_step` and `val_step` each scatter the inputs through a single
degenerate device `-1` shard, invoke the wrapped module (or its
train/val entry point) directly on the first shard, and return the
module result unchanged. -/
theorem c9_empty_devices_degenerate {I R : Type} (dp : E2EDataParallel I R)
    (inputs : I) (hdev : dp.device_ids = []) :
    dp.forward inputs =
      (Except.ok (dp.module.forwardFn (dp.shard inputs (-1))),
       [DPEvent.scatterCall [-1], DPEvent.moduleForward]) ∧
    dp.train_step inputs =
      (Except.ok (dp.module.trainStepFn (dp.shard inputs (-1))),
       [DPEvent.scatterCall [-1], DPEvent.moduleTrainStep]) ∧
    dp.val_step inputs =
      (Except.ok (dp.module.valStepFn (dp.shard inputs (-1))),
       [DPEvent.scatterCall [-1], DPEvent.moduleValStep]) := by
  refine ⟨?_, ?_, ?_⟩ <;>
    simp [E2EDataParallel.forward, E2EDataParallel.train_step,
      E2EDataParallel.val_step, hdev, dpScatter]

/-- Witness for C9 at a concrete wrapper with no designated devices. -/
theorem c9_empty_devices_degenerate_witness :
    exDP0.forward [3] =
      (Except.ok (exDP0.module.forwardFn (exDP0.shard [3] (-1))),
       [DPEvent.scatterCall [-1], DPEvent.moduleForward]) ∧
    exDP0.train_step [3] =
      (Except.ok (exDP0.module.trainStepFn (exDP0.shard [3] (-1))),
       [DPEvent.scatterCall [-1], DPEvent.moduleTrainStep]) ∧
    exDP0.val_step [3] =
      (Except.ok (exDP0.module.valStepFn (exDP0.shard [3] (-1))),
       [DPEvent.scatterCall [-1], DPEvent.moduleValStep]) :=
  c9_empty_devices_degenerate exDP0 [3] rfl

/-- C4 fails as stated: with two designated devices (and all parameters
colocated on the source device), `train_step` and `val_step` do not
shard across the device list and invoke the wrapped module; they raise
the single-GPU assertion with no scatter and no invocation. -/
theorem c4_counterexample :
    exDP2.device_ids.length = 2 ∧
    exDP2.module.paramDevices.all (fun x => x = srcDevice exDP2) = true ∧
    exDP2.train_step [3] = (Except.error DPError.assertionError, []) ∧
    exDP2.val_step [3] = (Except.error DPError.assertionError, []) :=
  ⟨by decide, by decide, rfl, rfl⟩

/-- C4 amended: with exactly one designated device and colocated
parameters, `train_step` and `val_step` scatter the inputs across the
one-element device list and invoke the wrapped module train/val entry
point on the (single) first shard, returning its result; with two or
more designated devices they raise an assertion error before any
scatter or invocation. -/
theorem c4_amended_step_sharding {I R : Type} (dp : E2EDataParallel I R)
    (inputs : I) (d : Int) :
    (dp.device_ids = [d] →
      dp.module.paramDevices.all (fun x => x = srcDevice dp) = true →
      dp.train_step inputs =
        (Except.ok (dp.module.trainStepFn (dp.shard inputs d)),
         [DPEvent.scatterCall [d], DPEvent.moduleTrainStep]) ∧
      dp.val_step inputs =
        (Except.ok (dp.module.valStepFn (dp.shard inputs d)),
         [DPEvent.scatterCall [d], DPEvent.moduleValStep])) ∧
    (2 ≤ dp.device_ids.length →
      dp.train_step inputs = (Except.error DPError.assertionError, []) ∧
      dp.val_step inputs = (Except.error DPError.assertionError, [])) := by
  constructor
  · intro hdev hall
    refine ⟨?_, ?_⟩ <;>
      simp [E2EDataParallel.train_step, E2EDataParallel.val_step, hdev, hall, dpScatter]
  · intro hlen
    have hne : ¬dp.device_ids = [] := by
      intro hc; rw [hc] at hlen; simp at hlen
    have hone : ¬dp.device_ids.length = 1 := by omega
    refine ⟨?_, ?_⟩ <;>
      simp [E2EDataParallel.train_step, E2EDataParallel.val_step, hne, hone]

/-- Witness for the amended C4: the single-device equations at a
concrete colocated wrapper, and the assertion outcome at a concrete
two-device wrapper. -/
theorem c4_amended_step_sharding_witness :
    (exDP1.train_step [3] =
      (Except.ok (exDP1.module.trainStepFn (exDP1.shard [3] 0)),
       [DPEvent.scatterCall [0], DPEvent.moduleTrainStep]) ∧
     exDP1.val_step [3] =
      (Except.ok (exDP1.module.valStepFn (exDP1.shard [3] 0)),
       [DPEvent.scatterCall [0], DPEvent.moduleValStep])) ∧
    (exDP2.train_step [3] = (Except.error DPError.assertionError, []) ∧
     exDP2.val_step [3] = (Except.error DPError.assertionError, [])) :=
  ⟨(c4_amended_step_sharding exDP1 [3] 0).1 rfl (by decide),
   (c4_amended_step_sharding exDP2 [3] 0).2 (by decide)⟩

/-- C8 fails as stated: with two designated devices and a parameter on
a device other than the source device, `train_step` and `val_step`
raise the assertion error, not a RuntimeError (in Python an
AssertionError is not a RuntimeError). -/
theorem c8_counterexample :
    (∃ dvc ∈ exDP2M.module.paramDevices, dvc ≠ srcDevice exDP2M) ∧
    (exDP2M.train_step [2]).1 = Except.error DPError.assertionError ∧
    (exDP2M.val_step [2]).1 = Except.error DPError.assertionError ∧
    DPError.assertionError ≠ DPError.runtimeError :=
  ⟨by decide, rfl, rfl, by decide⟩

/-- C8 amended: with exactly one designated device, if some parameter
or buffer of the wrapped module resides on a device other than the
source device, `train_step` and `val_step` raise a RuntimeError
immediately: the result carries no scatter call and no module
invocation, so nothing was scattered and no partial execution state
exists. -/
theorem c8_amended_colocation_error {I R : Type} (dp : E2EDataParallel I R)
    (inputs : I) (d : Int) (hdev : dp.device_ids = [d])
    (hmis : dp.module.paramDevices.all (fun x => x = srcDevice dp) = false) :
    dp.train_step inputs = (Except.error DPError.runtimeError, []) ∧
    dp.val_step inputs = (Except.error DPError.runtimeError, []) := by
  refine ⟨?_, ?_⟩ <;>
    simp [E2EDataParallel.train_step, E2EDataParallel.val_step, hdev, hmis]

/-- Witness for the amended C8 at a concrete one-device wrapper whose
parameter sits on the wrong device. -/
theorem c8_amended_colocation_error_witness :
    exDP1M.train_step [2] = (Except.error DPError.runtimeError, []) ∧
    exDP1M.val_step [2] = (Except.error DPError.runtimeError, []) :=
  c8_amended_colocation_error exDP1M [2] 0 rfl (by decide)

/- ----------------------------------------------------------------
List-level lemmas about the tensor helpers.
---------------------------------------------------------------- -/

theorem where3_getD (m : List Bool) (x y : Tensor3) (b : Nat)
    (hm : b < m.length) (hx : b < x.length) (hy : b < y.length) :
    (where3 m x y).getD b [] =
      if m.getD b false then x.getD b [] else y.getD b [] := by
  induction m generalizing x y b with
  | nil => simp at hm
  | cons mh mt ih =>
    cases x with
    | nil => simp at hx
    | cons xh xt =>
      cases y with
      | nil => simp at hy
      | cons yh yt =>
        cases b with
        | zero => simp [where3]
        | succ b' =>
          simp only [where3, List.getD_cons_succ]
          exact ih xt yt b' (by simpa using hm) (by simpa using hx) (by simpa using hy)

theorem whereTid_getD (m : List Bool) (t : Mat) (b : Nat)
    (hm : b < m.length) (ht : b < t.length) :
    (whereTid m t).getD b [] =
      if m.getD b false then t.getD b []
      else (t.getD b []).map fun _ => (-1 : Int) := by
  induction m generalizing t b with
  | nil => simp at hm
  | cons mh mt ih =>
    cases t with
    | nil => simp at ht
    | cons th tt =>
      cases b with
      | zero => simp [whereTid]
      | succ b' =>
        simp only [whereTid, List.getD_cons_succ]
        exact ih tt b' (by simpa using hm) (by simpa using ht)

theorem cat1_getD (x y : Tensor3) (b : Nat) (hx : b < x.length) (hy : b < y.length) :
    (cat1 x y).getD b [] = x.getD b [] ++ y.getD b [] := by
  induction x generalizing y b with
  | nil => simp at hx
  | cons xh xt ih =>
    cases y with
    | nil => simp at hy
    | cons yh yt =>
      cases b with
      | zero => simp [cat1]
      | succ b' =>
        simp only [cat1, List.getD_cons_succ]
        exact ih yt b' (by simpa using hx) (by simpa using hy)

theorem topk_feature_length (c : Mat) (k : Nat) (f a : Tensor3) :
    (topk c k f a).2.1.length = min c.length f.length := by
  simp [topk]

theorem topk_anchor_length (c : Mat) (k : Nat) (f a : Tensor3) :
    (topk c k f a).2.2.length = min c.length a.length := by
  simp [topk]

theorem maxLast_length (c : Tensor3) : (maxLast c).length = c.length := by
  simp [maxLast]

theorem map_const_replicate (l : Vec) :
    (l.map fun _ => (-1 : Int)) = List.replicate l.length (-1) := by
  induction l with
  | nil => rfl
  | cons a t ih => simp [List.replicate_succ, ih]

/- ----------------------------------------------------------------
Theorems: dispatch-loop structure (claims C6, C7).
---------------------------------------------------------------- -/

/-- C7: in both heads, a dispatch position whose backing layer is
absent is skipped as a no-op for every operation tag: the whole loop
state (instance feature, anchor, anchor embedding, predictions, track
identity) is unchanged, and since the step is a total function no
error is raised. -/
theorem c7_absent_layer_noop :
    (∀ (h : Head1) (inp : Inputs1) (i : Nat) (op : String) (s : State1),
        h.layerAbsent i = true → step1 h inp i op s = s) ∧
    (∀ (h : Head2) (inp : Inputs2) (i : Nat) (op : String) (s : State2),
        h.layerAbsent i = true → step2 h inp i op s = s) := by
  constructor
  · intro h inp i op s habs
    simp [step1, habs]
  · intro h inp i op s habs
    simp [step2, habs]

/-- Witness for C7 at the concrete heads whose layer slots are all
absent. -/
theorem c7_absent_layer_noop_witness :
    exHead1A.layerAbsent 0 = true ∧
    step1 exHead1A exInp1 0 "refine" (init1 exHead1A exInp1) = init1 exHead1A exInp1 ∧
    exHead2A.layerAbsent 1 = true ∧
    step2 exHead2A exInp2 1 "gnn" (init2 exHead2A exInp2) = init2 exHead2A exInp2 :=
  ⟨rfl, c7_absent_layer_noop.1 exHead1A exInp1 0 "refine" (init1 exHead1A exInp1) rfl,
   rfl, c7_absent_layer_noop.2 exHead2A exInp2 1 "gnn" (init2 exHead2A exInp2) rfl⟩

/-- C6: in both heads, after an executed refine stage at any dispatch
position other than the last, the anchor embedding held by the loop is
the anchor encoder applied to the anchor held after the stage; after a
refine at the last dispatch position the anchor embedding is left as it
was before the stage. -/
theorem c6_refine_recomputes_anchor_embed :
    (∀ (h : Head1) (inp : Inputs1) (i : Nat) (s : State1), h.layerAbsent i = false →
      ((i ≠ h.operation_order.length - 1 →
          (step1 h inp i "refine" s).anchor_embed =
            h.anchor_encoder (step1 h inp i "refine" s).anchor) ∧
       (i = h.operation_order.length - 1 →
          (step1 h inp i "refine" s).anchor_embed = s.anchor_embed))) ∧
    (∀ (h : Head2) (inp : Inputs2) (i : Nat) (s : State2), h.layerAbsent i = false →
      ((i ≠ h.operation_order.length - 1 →
          (step2 h inp i "refine" s).anchor_embed =
            h.anchor_encoder (step2 h inp i "refine" s).anchor) ∧
       (i = h.operation_order.length - 1 →
          (step2 h inp i "refine" s).anchor_embed = s.anchor_embed))) := by
  constructor
  · intro h inp i s habs
    constructor
    · intro hne
      simp [step1, habs, hne]
    · intro heq
      subst heq
      simp [step1, habs]
  · intro h inp i s habs
    constructor
    · intro hne
      simp [step2, habs, hne]
    · intro heq
      subst heq
      simp [step2, habs]

/-- Witness for C6: recomputation at a non-final refine of the concrete
first-frame head, and preservation at the final refine of the concrete
subsequent-frame head. -/
theorem c6_refine_recomputes_anchor_embed_witness :
    (step1 exHead1 exInp1 0 "refine" (init1 exHead1 exInp1)).anchor_embed =
      exHead1.anchor_encoder (step1 exHead1 exInp1 0 "refine" (init1 exHead1 exInp1)).anchor ∧
    (step2 exHead2 exInp2 1 "refine" (init2 exHead2 exInp2)).anchor_embed =
      (init2 exHead2 exInp2).anchor_embed :=
  ⟨(c6_refine_recomputes_anchor_embed.1 exHead1 exInp1 0 (init1 exHead1 exInp1) rfl).1
      (by decide),
   (c6_refine_recomputes_anchor_embed.2 exHead2 exInp2 1 (init2 exHead2 exInp2) rfl).2 rfl⟩

/- ----------------------------------------------------------------
Theorems: the temporal-merge event (claims C1, C2).
---------------------------------------------------------------- -/

/-- Unfolding of the subsequent-frame refine step at the position where
the temporal-merge event fires: the post-step instance feature, anchor,
classification score and track identity in terms of the tensor
helpers. -/
theorem step2_merge_fields (h : Head2) (inp : Inputs2) (i : Nat) (s : State2)
    (habs : h.layerAbsent i = false)
    (hfire : s.prediction.length + 1 = h.num_single_frame_decoder) :
    (step2 h inp i "refine" s).instance_feature =
      where3 inp.mask
        (cat1 inp.temp_instance_feature
          (topk (maxLast (refineOut2 h inp i s).2.1)
            (h.num_anchor - h.num_temp_instances) s.instance_feature
            (refineOut2 h inp i s).1).2.1)
        s.instance_feature ∧
    (step2 h inp i "refine" s).anchor =
      where3 inp.mask
        (cat1 inp.temp_anchor
          (topk (maxLast (refineOut2 h inp i s).2.1)
            (h.num_anchor - h.num_temp_instances) s.instance_feature
            (refineOut2 h inp i s).1).2.2)
        (refineOut2 h inp i s).1 ∧
    (step2 h inp i "refine" s).track_id = whereTid inp.mask s.track_id ∧
    (step2 h inp i "refine" s).cls =
      some (ClsVal.rank2 (maxLast (refineOut2 h inp i s).2.1)) := by
  refine ⟨?_, ?_, ?_, ?_⟩ <;> simp [step2, habs, hfire]

/-- C1: at the dispatch position where the temporal-merge event fires,
the subsequent-frame head computes exactly the merge the spec words
describe (`specTemporalMerge`): `N = num_anchor - num_temp_instances`,
running classification score reduced by max over classes, top-N
(instance feature, anchor) pairs selected by that score, temporal
instance feature and anchor concatenated in front of the selected N,
and the running pair replaced per batch sample by the rebuilt pair
where the continuation mask is true and the pre-merge pair where it is
false. -/
theorem c1_merge_event_matches_spec (h : Head2) (inp : Inputs2) (i : Nat) (s : State2)
    (habs : h.layerAbsent i = false)
    (hfire : s.prediction.length + 1 = h.num_single_frame_decoder) :
    (step2 h inp i "refine" s).instance_feature =
      (specTemporalMerge h.num_anchor h.num_temp_instances inp.mask
        inp.temp_instance_feature inp.temp_anchor s.instance_feature
        (refineOut2 h inp i s).1 (refineOut2 h inp i s).2.1 s.track_id).1 ∧
    (step2 h inp i "refine" s).anchor =
      (specTemporalMerge h.num_anchor h.num_temp_instances inp.mask
        inp.temp_instance_feature inp.temp_anchor s.instance_feature
        (refineOut2 h inp i s).1 (refineOut2 h inp i s).2.1 s.track_id).2.1 ∧
    (step2 h inp i "refine" s).track_id =
      (specTemporalMerge h.num_anchor h.num_temp_instances inp.mask
        inp.temp_instance_feature inp.temp_anchor s.instance_feature
        (refineOut2 h inp i s).1 (refineOut2 h inp i s).2.1 s.track_id).2.2 ∧
    (step2 h inp i "refine" s).cls =
      some (ClsVal.rank2 (maxLast (refineOut2 h inp i s).2.1)) := by
  have hm := step2_merge_fields h inp i s habs hfire
  simpa [specTemporalMerge] using hm

/-- Witness for C1 at the concrete subsequent-frame head, with the
merge firing at dispatch position 0. -/
theorem c1_merge_event_matches_spec_witness :
    exHead2.layerAbsent 0 = false ∧
    (init2 exHead2 exInp2).prediction.length + 1 = exHead2.num_single_frame_decoder ∧
    ((step2 exHead2 exInp2 0 "refine" (init2 exHead2 exInp2)).instance_feature =
      (specTemporalMerge exHead2.num_anchor exHead2.num_temp_instances exInp2.mask
        exInp2.temp_instance_feature exInp2.temp_anchor
        (init2 exHead2 exInp2).instance_feature
        (refineOut2 exHead2 exInp2 0 (init2 exHead2 exInp2)).1
        (refineOut2 exHead2 exInp2 0 (init2 exHead2 exInp2)).2.1
        (init2 exHead2 exInp2).track_id).1 ∧
    (step2 exHead2 exInp2 0 "refine" (init2 exHead2 exInp2)).anchor =
      (specTemporalMerge exHead2.num_anchor exHead2.num_temp_instances exInp2.mask
        exInp2.temp_instance_feature exInp2.temp_anchor
        (init2 exHead2 exInp2).instance_feature
        (refineOut2 exHead2 exInp2 0 (init2 exHead2 exInp2)).1
        (refineOut2 exHead2 exInp2 0 (init2 exHead2 exInp2)).2.1
        (init2 exHead2 exInp2).track_id).2.1 ∧
    (step2 exHead2 exInp2 0 "refine" (init2 exHead2 exInp2)).track_id =
      (specTemporalMerge exHead2.num_anchor exHead2.num_temp_instances exInp2.mask
        exInp2.temp_instance_feature exInp2.temp_anchor
        (init2 exHead2 exInp2).instance_feature
        (refineOut2 exHead2 exInp2 0 (init2 exHead2 exInp2)).1
        (refineOut2 exHead2 exInp2 0 (init2 exHead2 exInp2)).2.1
        (init2 exHead2 exInp2).track_id).2.2 ∧
    (step2 exHead2 exInp2 0 "refine" (init2 exHead2 exInp2)).cls =
      some (ClsVal.rank2 (maxLast (refineOut2 exHead2 exInp2 0 (init2 exHead2 exInp2)).2.1))) :=
  ⟨rfl, rfl,
   c1_merge_event_matches_spec exHead2 exInp2 0 (init2 exHead2 exInp2) rfl rfl⟩

theorem cat1_length (x y : Tensor3) : (cat1 x y).length = min x.length y.length := by
  induction x generalizing y with
  | nil => simp [cat1]
  | cons xh xt ih =>
    cases y with
    | nil => simp [cat1]
    | cons yh yt => simp [cat1, ih, Nat.succ_min_succ]

/-- C2: at the merge event of the subsequent-frame head, per batch row:
with continuation mask false, the post-merge instance feature and
anchor of that row equal the pre-merge (dispatch-path) values — the
running instance feature entering the merge and the refine-updated
anchor — and the track-identity row becomes the sentinel `-1` across
all `num_anchor` slots; with continuation mask true, the first
`num_temp_instances` slots of the merged instance feature and anchor
equal the corresponding temporal input rows exactly. -/
theorem c2_merge_rowwise (h : Head2) (inp : Inputs2) (i b : Nat) (s : State2)
    (habs : h.layerAbsent i = false)
    (hfire : s.prediction.length + 1 = h.num_single_frame_decoder)
    (hmb : b < inp.mask.length)
    (hf : s.instance_feature.length = inp.mask.length)
    (ha : (refineOut2 h inp i s).1.length = inp.mask.length)
    (hc : (refineOut2 h inp i s).2.1.length = inp.mask.length)
    (htf : inp.temp_instance_feature.length = inp.mask.length)
    (hta : inp.temp_anchor.length = inp.mask.length)
    (htid : s.track_id.length = inp.mask.length)
    (hrow : (s.track_id.getD b []).length = h.num_anchor)
    (hrowf : (inp.temp_instance_feature.getD b []).length = h.num_temp_instances)
    (hrowa : (inp.temp_anchor.getD b []).length = h.num_temp_instances) :
    (inp.mask.getD b false = false →
      (step2 h inp i "refine" s).instance_feature.getD b [] =
        s.instance_feature.getD b [] ∧
      (step2 h inp i "refine" s).anchor.getD b [] =
        (refineOut2 h inp i s).1.getD b [] ∧
      (step2 h inp i "refine" s).track_id.getD b [] =
        List.replicate h.num_anchor (-1)) ∧
    (inp.mask.getD b false = true →
      ((step2 h inp i "refine" s).instance_feature.getD b []).take
          h.num_temp_instances = inp.temp_instance_feature.getD b [] ∧
      ((step2 h inp i "refine" s).anchor.getD b []).take
          h.num_temp_instances = inp.temp_anchor.getD b []) := by
  obtain ⟨hif, han, htk, -⟩ := step2_merge_fields h inp i s habs hfire
  have hflen : b <
      (topk (maxLast (refineOut2 h inp i s).2.1)
        (h.num_anchor - h.num_temp_instances) s.instance_feature
        (refineOut2 h inp i s).1).2.1.length := by
    rw [topk_feature_length, maxLast_length, hc, hf]
    simpa using hmb
  have halen : b <
      (topk (maxLast (refineOut2 h inp i s).2.1)
        (h.num_anchor - h.num_temp_instances) s.instance_feature
        (refineOut2 h inp i s).1).2.2.length := by
    rw [topk_anchor_length, maxLast_length, hc, ha]
    simpa using hmb
  have hcatf : b <
      (cat1 inp.temp_instance_feature
        (topk (maxLast (refineOut2 h inp i s).2.1)
          (h.num_anchor - h.num_temp_instances) s.instance_feature
          (refineOut2 h inp i s).1).2.1).length := by
    rw [cat1_length]
    exact lt_min (htf ▸ hmb) hflen
  have hcata : b <
      (cat1 inp.temp_anchor
        (topk (maxLast (refineOut2 h inp i s).2.1)
          (h.num_anchor - h.num_temp_instances) s.instance_feature
          (refineOut2 h inp i s).1).2.2).length := by
    rw [cat1_length]
    exact lt_min (hta ▸ hmb) halen
  constructor
  · intro hmask
    refine ⟨?_, ?_, ?_⟩
    · rw [hif, where3_getD _ _ _ b hmb hcatf (hf ▸ hmb), hmask]
      simp
    · rw [han, where3_getD _ _ _ b hmb hcata (ha ▸ hmb), hmask]
      simp
    · rw [htk, whereTid_getD _ _ b hmb (htid ▸ hmb), hmask]
      rw [if_neg Bool.false_ne_true, map_const_replicate, hrow]
  · intro hmask
    constructor
    · rw [hif, where3_getD _ _ _ b hmb hcatf (hf ▸ hmb), hmask]
      simp only [if_true]
      rw [cat1_getD _ _ b (htf ▸ hmb) hflen, ← hrowf]
      exact List.take_left _ _
    · rw [han, where3_getD _ _ _ b hmb hcata (ha ▸ hmb), hmask]
      simp only [if_true]
      rw [cat1_getD _ _ b (hta ▸ hmb) halen, ← hrowa]
      exact List.take_left _ _

/-- Witness for C2 at the concrete subsequent-frame head: batch row 0
has continuation mask false, batch row 1 has it true. -/
theorem c2_merge_rowwise_witness :
    ((step2 exHead2 exInp2 0 "refine" (init2 exHead2 exInp2)).instance_feature.getD 0 [] =
        (init2 exHead2 exInp2).instance_feature.getD 0 [] ∧
     (step2 exHead2 exInp2 0 "refine" (init2 exHead2 exInp2)).anchor.getD 0 [] =
        (refineOut2 exHead2 exInp2 0 (init2 exHead2 exInp2)).1.getD 0 [] ∧
     (step2 exHead2 exInp2 0 "refine" (init2 exHead2 exInp2)).track_id.getD 0 [] =
        List.replicate exHead2.num_anchor (-1)) ∧
    (((step2 exHead2 exInp2 0 "refine" (init2 exHead2 exInp2)).instance_feature.getD 1 []).take
        exHead2.num_temp_instances = exInp2.temp_instance_feature.getD 1 [] ∧
     ((step2 exHead2 exInp2 0 "refine" (init2 exHead2 exInp2)).anchor.getD 1 []).take
        exHead2.num_temp_instances = exInp2.temp_anchor.getD 1 []) :=
  ⟨(c2_merge_rowwise exHead2 exInp2 0 0 (init2 exHead2 exInp2) rfl rfl (by decide)
      rfl rfl rfl rfl rfl rfl rfl rfl rfl).1 rfl,
   (c2_merge_rowwise exHead2 exInp2 0 1 (init2 exHead2 exInp2) rfl rfl (by decide)
      rfl rfl rfl rfl rfl rfl rfl rfl rfl).2 rfl⟩

/- ----------------------------------------------------------------
Counting lemmas for the subsequent-frame loop (claims C5, C10).
---------------------------------------------------------------- -/

theorem step2_pred_length (h : Head2) (inp : Inputs2) (i : Nat) (op : String) (s : State2) :
    (step2 h inp i op s).prediction.length =
      s.prediction.length +
        (if op = "refine" ∧ h.layerAbsent i = false then 1 else 0) := by
  by_cases habs : h.layerAbsent i
  · simp [step2, habs]
  · have habs' : h.layerAbsent i = false := by simpa using habs
    unfold step2
    rw [if_neg (by simp [habs'])]
    split <;> simp_all [List.length_append]

/-- Prediction/track-id effect of one step, for any operation tag:
either both are untouched, or (executed refine) one prediction is
appended and the track identity is mask-selected exactly when the new
count reaches the single-frame decoder stage count. -/
theorem step2_track_pred (h : Head2) (inp : Inputs2) (i : Nat) (op : String) (s : State2) :
    ((step2 h inp i op s).prediction = s.prediction ∧
      (step2 h inp i op s).track_id = s.track_id) ∨
    ((step2 h inp i op s).prediction = s.prediction ++ [(refineOut2 h inp i s).1] ∧
      (if s.prediction.length + 1 = h.num_single_frame_decoder
       then (step2 h inp i op s).track_id = whereTid inp.mask s.track_id
       else (step2 h inp i op s).track_id = s.track_id)) := by
  by_cases habs : h.layerAbsent i
  · left
    simp [step2, habs]
  · have habs' : h.layerAbsent i = false := by simpa using habs
    unfold step2
    rw [if_neg (by simp [habs'])]
    split
    · left; simp
    · left; simp
    · left; simp
    · left; simp
    · left; simp
    · right
      constructor
      · simp
      · by_cases hfire : s.prediction.length + 1 = h.num_single_frame_decoder
        · rw [if_pos hfire]
          simp [List.length_append, hfire]
        · rw [if_neg hfire]
          simp [List.length_append, hfire]
    · left; simp

theorem run2Aux_pred_length (h : Head2) (inp : Inputs2) (ops : List String)
    (i : Nat) (s : State2) :
    (run2Aux h inp i ops s).prediction.length =
      s.prediction.length + refCntFrom h i ops := by
  induction ops generalizing i s with
  | nil => simp [run2Aux, refCntFrom]
  | cons op rest ih =>
    simp only [run2Aux, refCntFrom]
    rw [ih, step2_pred_length]
    omega

theorem run2Aux_append (h : Head2) (inp : Inputs2) (l1 l2 : List String)
    (i : Nat) (s : State2) :
    run2Aux h inp i (l1 ++ l2) s =
      run2Aux h inp (i + l1.length) l2 (run2Aux h inp i l1 s) := by
  induction l1 generalizing i s with
  | nil => simp [run2Aux]
  | cons op rest ih =>
    simp only [List.cons_append, run2Aux, List.length_cons, List.append_eq]
    rw [ih]
    have hidx : i + (rest.length + 1) = i + 1 + rest.length := by omega
    rw [hidx]

theorem refCntFrom_append (h : Head2) (l1 l2 : List String) (i : Nat) :
    refCntFrom h i (l1 ++ l2) = refCntFrom h i l1 + refCntFrom h (i + l1.length) l2 := by
  induction l1 generalizing i with
  | nil => simp [refCntFrom]
  | cons op rest ih =>
    simp only [List.cons_append, refCntFrom, List.length_cons, List.append_eq]
    rw [ih]
    have hidx : i + (rest.length + 1) = i + 1 + rest.length := by omega
    rw [hidx]
    omega

theorem take_succ_getD (l : List String) (k : Nat) (hk : k < l.length) :
    l.take (k + 1) = l.take k ++ [l.getD k ""] := by
  induction l generalizing k with
  | nil => simp at hk
  | cons x xs ih =>
    cases k with
    | zero => simp
    | succ k' =>
      simp only [List.take_succ_cons, List.getD_cons_succ]
      rw [ih k' (by simpa using hk)]
      simp

theorem refCntUpTo_succ (h : Head2) (k : Nat) (hk : k < h.operation_order.length) :
    refCntUpTo h (k + 1) =
      refCntUpTo h k +
        (if h.operation_order.getD k "" = "refine" ∧ h.layerAbsent k = false
         then 1 else 0) := by
  unfold refCntUpTo
  rw [take_succ_getD _ _ hk, refCntFrom_append]
  simp [refCntFrom, List.length_take, Nat.min_eq_left (Nat.le_of_lt hk)]

theorem refCntUpTo_of_le (h : Head2) (k : Nat) (hk : h.operation_order.length ≤ k) :
    refCntUpTo h k = refCntUpTo h h.operation_order.length := by
  unfold refCntUpTo
  rw [List.take_of_length_le hk, List.take_length]

theorem refCntUpTo_mono (h : Head2) : Monotone (refCntUpTo h) := by
  apply monotone_nat_of_le_succ
  intro k
  by_cases hk : k < h.operation_order.length
  · rw [refCntUpTo_succ h k hk]
    omega
  · rw [refCntUpTo_of_le h (k + 1) (by omega), refCntUpTo_of_le h k (by omega)]

theorem stateAt2_succ (h : Head2) (inp : Inputs2) (k : Nat)
    (hk : k < h.operation_order.length) :
    stateAt2 h inp (k + 1) =
      step2 h inp k (h.operation_order.getD k "") (stateAt2 h inp k) := by
  unfold stateAt2
  rw [take_succ_getD _ _ hk, run2Aux_append]
  simp [run2Aux, List.length_take, Nat.min_eq_left (Nat.le_of_lt hk)]

theorem stateAt2_pred_length (h : Head2) (inp : Inputs2) (k : Nat) :
    (stateAt2 h inp k).prediction.length = refCntUpTo h k := by
  unfold stateAt2 refCntUpTo
  rw [run2Aux_pred_length]
  simp [init2]

theorem execRefine_iff (h : Head2) (k : Nat) :
    execRefine h k = true ↔
      (h.operation_order.getD k "" = "refine" ∧ h.layerAbsent k = false) := by
  simp [execRefine]

/- ----------------------------------------------------------------
Theorems: the merge event fires exactly once (claim C5).
---------------------------------------------------------------- -/

/-- C5: when the operation order contains at least
`num_single_frame_decoder` executed refine stages (and that count is at
least one), the temporal-merge condition of the subsequent-frame loop
holds at exactly one dispatch position: the first position at which the
number of accumulated refine outputs equals the configured
single-frame-decoder stage count, and at no later position. -/
theorem c5_merge_fires_exactly_once (h : Head2) (inp : Inputs2)
    (h1 : 1 ≤ h.num_single_frame_decoder)
    (h2 : h.num_single_frame_decoder ≤ refCntUpTo h h.operation_order.length) :
    ∃ k, mergeFiresAt h inp k ∧
      refCntUpTo h (k + 1) = h.num_single_frame_decoder ∧
      (∀ j < k, refCntUpTo h (j + 1) < h.num_single_frame_decoder) ∧
      (∀ j, mergeFiresAt h inp j → j = k) := by
  classical
  have hL1 : 1 ≤ h.operation_order.length := by
    by_contra hc
    push_neg at hc
    have hL0 : h.operation_order.length = 0 := by omega
    rw [hL0] at h2
    have : refCntUpTo h 0 = 0 := by
      simp [refCntUpTo, refCntFrom]
    omega
  have hex : ∃ k, h.num_single_frame_decoder ≤ refCntUpTo h (k + 1) := by
    refine ⟨h.operation_order.length - 1, ?_⟩
    have : h.operation_order.length - 1 + 1 = h.operation_order.length := by omega
    rw [this]
    exact h2
  set k0 := Nat.find hex with hk0def
  have hk0 : h.num_single_frame_decoder ≤ refCntUpTo h (k0 + 1) := Nat.find_spec hex
  have hmin : ∀ j, j < k0 → refCntUpTo h (j + 1) < h.num_single_frame_decoder := by
    intro j hj
    have := Nat.find_min hex hj
    omega
  have hk0L : k0 < h.operation_order.length := by
    by_contra hge
    push_neg at hge
    have hlt : h.operation_order.length - 1 < k0 := by omega
    have := hmin _ hlt
    have heq : h.operation_order.length - 1 + 1 = h.operation_order.length := by omega
    rw [heq] at this
    omega
  have hfk0 : refCntUpTo h k0 < h.num_single_frame_decoder := by
    cases hk0case : k0 with
    | zero =>
      have : refCntUpTo h 0 = 0 := by simp [refCntUpTo, refCntFrom]
      omega
    | succ k' =>
      have := hmin k' (by omega)
      simpa [hk0case] using this
  have hstep := refCntUpTo_succ h k0 hk0L
  have hexec : h.operation_order.getD k0 "" = "refine" ∧ h.layerAbsent k0 = false := by
    by_contra hcon
    rw [hstep, if_neg hcon] at hk0
    omega
  rw [if_pos hexec] at hstep
  rw [hstep] at hk0
  have hcnt : refCntUpTo h k0 + 1 = h.num_single_frame_decoder := by omega
  have hfires : mergeFiresAt h inp k0 := by
    refine ⟨hk0L, ?_, ?_⟩
    · rw [execRefine_iff]
      exact hexec
    · rw [stateAt2_pred_length]
      exact hcnt
  refine ⟨k0, hfires, ?_, hmin, ?_⟩
  · rw [hstep]
    exact hcnt
  · intro j hj
    obtain ⟨hjL, hjexec, hjpred⟩ := hj
    rw [execRefine_iff] at hjexec
    rw [stateAt2_pred_length] at hjpred
    have hjstep := refCntUpTo_succ h j hjL
    rw [if_pos hjexec] at hjstep
    by_contra hne
    rcases Nat.lt_or_ge j k0 with hlt | hge
    · have := hmin j hlt
      omega
    · have hgt : k0 < j := by omega
      have hmono : refCntUpTo h (k0 + 1) ≤ refCntUpTo h j := refCntUpTo_mono h hgt
      omega

/-- Witness for C5 at the concrete subsequent-frame head: two executed
refine stages, single-frame-decoder count one. -/
theorem c5_merge_fires_exactly_once_witness :
    1 ≤ exHead2.num_single_frame_decoder ∧
    exHead2.num_single_frame_decoder ≤
      refCntUpTo exHead2 exHead2.operation_order.length ∧
    (∃ k, mergeFiresAt exHead2 exInp2 k ∧
      refCntUpTo exHead2 (k + 1) = exHead2.num_single_frame_decoder ∧
      (∀ j < k, refCntUpTo exHead2 (j + 1) < exHead2.num_single_frame_decoder) ∧
      (∀ j, mergeFiresAt exHead2 exInp2 j → j = k)) :=
  ⟨by decide, by decide,
   c5_merge_fires_exactly_once exHead2 exInp2 (by decide) (by decide)⟩

/- ----------------------------------------------------------------
Theorems: track identity (claim C10).
---------------------------------------------------------------- -/

theorem step2_trackInv (h : Head2) (inp : Inputs2) (i : Nat) (op : String) (s : State2)
    (hinv : trackInv h inp s) : trackInv h inp (step2 h inp i op s) := by
  rcases step2_track_pred h inp i op s with ⟨hp, ht⟩ | ⟨hp, ht⟩
  · unfold trackInv at hinv ⊢
    rw [hp, ht]
    exact hinv
  · by_cases hfire : s.prediction.length + 1 = h.num_single_frame_decoder
    · rw [if_pos hfire] at ht
      rcases hinv with ⟨hlt, htid⟩ | ⟨hge, htid⟩
      · right
        constructor
        · rw [hp, List.length_append]
          simp
          omega
        · rw [ht, htid]
      · exact absurd hfire (by omega)
    · rw [if_neg hfire] at ht
      rcases hinv with ⟨hlt, htid⟩ | ⟨hge, htid⟩
      · left
        constructor
        · rw [hp, List.length_append]
          simp
          omega
        · rw [ht]
          exact htid
      · right
        constructor
        · rw [hp, List.length_append]
          simp
          omega
        · rw [ht]
          exact htid

theorem run2Aux_trackInv (h : Head2) (inp : Inputs2) (ops : List String)
    (i : Nat) (s : State2) (hinv : trackInv h inp s) :
    trackInv h inp (run2Aux h inp i ops s) := by
  induction ops generalizing i s with
  | nil => simpa [run2Aux] using hinv
  | cons op rest ih => exact ih _ _ (step2_trackInv h inp i op s hinv)

/-- C10: whenever the merge event is reachable (positive single-frame
stage count, at least that many executed refine stages), the track
identity returned by `Sparse4DHead2rd.head_forward` is exactly the
input track identity where the continuation mask is true and the
sentinel `-1` where it is false.  In particular it depends only on the
input track identity and the continuation mask — the right-hand side
mentions no feature map, anchor or instance feature — and no dispatch
stage other than the single merge event touches the track identity
(`step2_track_pred`). -/
theorem c10_track_id_formula (h : Head2) (inp : Inputs2)
    (h1 : 1 ≤ h.num_single_frame_decoder)
    (h2 : h.num_single_frame_decoder ≤ refCntUpTo h h.operation_order.length) :
    (Sparse4DHead2rd.head_forward h inp).2.2.2.2 = whereTid inp.mask inp.track_id := by
  have hinit : trackInv h inp (init2 h inp) := by
    left
    constructor
    · simp [init2]
      omega
    · rfl
  have hfin : trackInv h inp (run2 h inp) :=
    run2Aux_trackInv h inp h.operation_order 0 (init2 h inp) hinit
  have hlen : (run2 h inp).prediction.length = refCntUpTo h h.operation_order.length := by
    unfold run2 refCntUpTo
    rw [run2Aux_pred_length, List.take_length]
    simp [init2]
  rcases hfin with ⟨hlt, -⟩ | ⟨-, htid⟩
  · exfalso
    rw [hlen] at hlt
    omega
  · simpa [Sparse4DHead2rd.head_forward] using htid

/-- Witness for C10 at the concrete subsequent-frame head and inputs:
batch row 0 restarts (mask false, identities invalidated to `-1`),
batch row 1 continues (identities carried through). -/
theorem c10_track_id_formula_witness :
    (Sparse4DHead2rd.head_forward exHead2 exInp2).2.2.2.2 =
      whereTid exInp2.mask exInp2.track_id :=
  c10_track_id_formula exHead2 exInp2 (by decide) (by decide)

/- ----------------------------------------------------------------
Theorems: the level start-offset tensor of `dummpy_input` (claim C3).
---------------------------------------------------------------- -/

theorem inclSums_ne_nil (l : List Nat) (a : Nat) (hl : l ≠ []) : inclSums a l ≠ [] := by
  cases l with
  | nil => exact absurd rfl hl
  | cons x xs => simp [inclSums]

theorem cons_dropLast_inclSums (l : List Nat) (a : Nat) (hl : l ≠ []) :
    a :: (inclSums a l).dropLast = scanSums a l := by
  induction l generalizing a with
  | nil => exact absurd rfl hl
  | cons x xs ih =>
    cases xs with
    | nil => simp [inclSums, scanSums]
    | cons y ys =>
      rw [show inclSums a (x :: y :: ys) = (a + x) :: inclSums (a + x) (y :: ys) from rfl]
      rw [List.dropLast_cons_of_ne_nil (inclSums_ne_nil _ _ (List.cons_ne_nil y ys))]
      rw [show scanSums a (x :: y :: ys) = a :: scanSums (a + x) (y :: ys) from rfl]
      rw [← ih (a + x) (List.cons_ne_nil y ys)]

theorem scanSums_shift (l : List Nat) (a : Nat) :
    scanSums a l = (scanSums 0 l).map (fun n => a + n) := by
  induction l generalizing a with
  | nil => simp [scanSums]
  | cons x xs ih =>
    rw [show scanSums a (x :: xs) = a :: scanSums (a + x) xs from rfl]
    rw [show scanSums 0 (x :: xs) = 0 :: scanSums (0 + x) xs from rfl]
    rw [Nat.zero_add, List.map_cons, Nat.add_zero, ih (a + x), ih x, List.map_map]
    congr 1
    apply List.map_congr_left
    intro n _
    simp [Function.comp, Nat.add_assoc]

theorem scanSums_append (xs ys : List Nat) (a : Nat) :
    scanSums a (xs ++ ys) = scanSums a xs ++ scanSums (a + xs.sum) ys := by
  induction xs generalizing a with
  | nil => simp [scanSums]
  | cons x xt ih =>
    simp only [List.cons_append, List.sum_cons]
    rw [show scanSums a (x :: (xt ++ ys)) = a :: scanSums (a + x) (xt ++ ys) from rfl]
    rw [show scanSums a (x :: xt) = a :: scanSums (a + x) xt from rfl]
    rw [ih (a + x), List.cons_append, Nat.add_assoc]

theorem scanSums_replicate_flatten (L : List Nat) (c : Nat) :
    scanSums 0 (List.replicate c L).flatten =
      ((List.range c).map fun k => (scanSums 0 L).map fun n => k * L.sum + n).flatten := by
  induction c with
  | zero => simp [scanSums]
  | succ c' ih =>
    rw [List.replicate_succ, List.flatten_cons, scanSums_append, Nat.zero_add,
      scanSums_shift _ L.sum, ih, List.range_succ_eq_map, List.map_cons, List.flatten_cons,
      List.map_flatten, List.map_map, List.map_map]
    congr 1
    · simp
    · congr 1
      apply List.map_congr_left
      intro k _
      simp only [Function.comp]
      rw [List.map_map]
      apply List.map_congr_left
      intro n _
      simp only [Function.comp, Nat.succ_mul]
      omega

theorem chunk4_flatten4 {α : Type} (rows : List (List α))
    (hrows : ∀ r ∈ rows, ∃ a b c d, r = [a, b, c, d]) :
    chunk4 rows.flatten = rows := by
  induction rows with
  | nil => rfl
  | cons r rest ih =>
    obtain ⟨a, b, c, d, hr⟩ := hrows r (List.mem_cons_self r rest)
    subst hr
    rw [List.flatten_cons]
    rw [show [a, b, c, d] ++ rest.flatten = a :: b :: c :: d :: rest.flatten from rfl]
    rw [show chunk4 (a :: b :: c :: d :: rest.flatten) = [a, b, c, d] :: chunk4 rest.flatten
      from rfl]
    rw [ih (fun r hr => hrows r (List.mem_cons_of_mem _ hr))]

theorem mem_inclSums_le (l : List Nat) (a x : Nat) (hx : x ∈ inclSums a l) :
    x ≤ a + l.sum := by
  induction l generalizing a with
  | nil => simp [inclSums] at hx
  | cons y ys ih =>
    rw [show inclSums a (y :: ys) = (a + y) :: inclSums (a + y) ys from rfl] at hx
    rcases List.mem_cons.mp hx with rfl | hx2
    · simp only [List.sum_cons]
      omega
    · have := ih (a + y) hx2
      simp only [List.sum_cons]
      omega

theorem toInt32_of_lt (n : Nat) (hn : n < 2 ^ 31) : toInt32 n = (n : Int) := by
  unfold toInt32
  have hcast : (n : Int) < 2 ^ 31 := by exact_mod_cast hn
  have h0 : (0 : Int) ≤ (n : Int) + 2 ^ 31 := by positivity
  have h1 : (n : Int) + 2 ^ 31 < 2 ^ 32 := by omega
  rw [Int.emod_eq_of_lt h0 h1]
  omega

theorem flatten_replicate_sum (L : List Nat) (c : Nat) :
    ((List.replicate c L).flatten).sum = c * L.sum := by
  induction c with
  | zero => simp
  | succ c' ih =>
    rw [List.replicate_succ, List.flatten_cons, List.sum_append, ih, Nat.succ_mul]
    omega

/-- C3 fails as stated: at two cameras and a 32x32 input, the start
offsets of the second camera are not reset to zero; the running
cumulative sum continues across the camera boundary (the second-camera
row starts at 85, the total position count of one camera). -/
theorem c3_counterexample :
    dummy_level_start_index 2 32 32 ≠ resetStartIndex 2 32 32 ∧
    (dummy_level_start_index 2 32 32).getD 1 [] = ([85, 149, 165, 169] : List Int) ∧
    (resetStartIndex 2 32 32).getD 1 [] = ([0, 64, 80, 84] : List Int) := by
  refine ⟨by decide, by decide, by decide⟩

/-- C3 amended: the start-offset tensor equals the exclusive prefix sum
of height-by-width taken across all (camera, level) pairs in flattening
order, with no per-camera reset: row `k` is the within-camera exclusive
prefix sum shifted by `k` times the per-camera total (exact whenever
the grand total fits in int32, which the hypothesis guarantees). -/
theorem c3_amended_global_offsets (nums_cam input_h input_w : Nat)
    (hb : nums_cam * (levelSizes input_h input_w).sum < 2 ^ 31) :
    dummy_level_start_index nums_cam input_h input_w =
      (List.range nums_cam).map fun k =>
        (scanSums 0 (levelSizes input_h input_w)).map fun n =>
          ((k * (levelSizes input_h input_w).sum + n : Nat) : Int) := by
  cases nums_cam with
  | zero => rfl
  | succ c =>
    have hflatne :
        ((List.replicate (c + 1) (levelSizes input_h input_w)).flatten : List Nat) ≠ [] := by
      rw [List.replicate_succ, List.flatten_cons]
      simp [levelSizes]
    show chunk4 ((0 : Int) ::
        ((inclSums 0 ((List.replicate (c + 1) (levelSizes input_h input_w)).flatten)).map
          toInt32).dropLast) = _
    have hmap :
        ((inclSums 0 (List.replicate (c + 1) (levelSizes input_h input_w)).flatten).map
          toInt32) =
        ((inclSums 0 (List.replicate (c + 1) (levelSizes input_h input_w)).flatten).map
          Int.ofNat) := by
      apply List.map_congr_left
      intro x hx
      have hle := mem_inclSums_le _ 0 x hx
      have hsum := flatten_replicate_sum (levelSizes input_h input_w) (c + 1)
      exact toInt32_of_lt x (by omega)
    rw [hmap, ← List.map_dropLast]
    rw [show ((0 : Int) ::
          ((inclSums 0
            ((List.replicate (c + 1) (levelSizes input_h input_w)).flatten)).dropLast.map
              Int.ofNat)) =
        ((0 :: (inclSums 0
            ((List.replicate (c + 1) (levelSizes input_h input_w)).flatten)).dropLast).map
          Int.ofNat) from rfl]
    rw [cons_dropLast_inclSums _ 0 hflatne]
    rw [scanSums_replicate_flatten (levelSizes input_h input_w) (c + 1)]
    rw [List.map_flatten, List.map_map]
    refine (chunk4_flatten4 _ ?_).trans ?_
    · intro r hr
      simp only [List.mem_map] at hr
      obtain ⟨k, -, hrk⟩ := hr
      exact ⟨_, _, _, _, hrk.symm.trans rfl⟩
    · apply List.map_congr_left
      intro k _
      simp only [Function.comp]
      rw [List.map_map]
      apply List.map_congr_left
      intro n _
      simp [Function.comp]

/-- Witness for the amended C3 at the deployed configuration: six
cameras, 256x704 input (per-camera total 14960 positions, grand total
89760, comfortably below the int32 bound). -/
theorem c3_amended_global_offsets_witness :
    6 * (levelSizes 256 704).sum < 2 ^ 31 ∧
    dummy_level_start_index 6 256 704 =
      (List.range 6).map fun k =>
        (scanSums 0 (levelSizes 256 704)).map fun n =>
          ((k * (levelSizes 256 704).sum + n : Nat) : Int) :=
  ⟨by decide, c3_amended_global_offsets 6 256 704 (by decide)⟩
